import Mathlib

/-!
Shallow embedding of the Myntra / Nykaa scraping scripts
(`myntra2_fast.py`, `myntra_new.py`, `nyakaa_new.py`).

The browser, the DOM and the filesystem are modelled explicitly:
a DOM query is a function returning `Option String` (`none` models the
`NoSuchElementException` / bare-`except` branch of the source, `some`
models a successful read), and the filesystem is a map from file names
to file contents.  Python string helpers (`strip`, `in`, `split`,
truthiness) are reimplemented over `List Char` so that every definition
evaluates by kernel reduction.
-/

namespace WebScrape

/-! ## Python string helpers -/

/-- Python `s.strip(chars)` (or whitespace when `chars` is the whitespace
set): drop the characters of the set from both ends of the string. -/
def pyStripChars (chars : List Char) (s : String) : String :=
  ⟨(((s.toList.dropWhile (chars.contains ·)).reverse.dropWhile
      (chars.contains ·)).reverse)⟩

/-- Python `s.strip()` — strip ASCII whitespace from both ends. -/
def pyStrip (s : String) : String :=
  pyStripChars [' ', '\t', '\n', '\r'] s

/-- Python `needle in hay` on strings: substring containment. -/
def strContains (hay needle : String) : Bool :=
  hay.toList.tails.any (fun t => needle.toList.isPrefixOf t)

/-- Python `s.split("?")[0]`: the part of `s` before the first `?`
(the whole string when no `?` occurs). -/
def stripQuery (s : String) : String :=
  ⟨s.toList.takeWhile (fun c => c ≠ '?')⟩

/-- Python truthiness of a string: the empty string is falsy. -/
def pyFalsy (s : String) : Bool :=
  s == ""

/-- Python `s.startswith(pre)`. -/
def pyStartsWith (s pre : String) : Bool :=
  pre.toList.isPrefixOf s.toList

/-! ## Field extractor of `myntra2_fast.py` (`extract_product_details`)

A listing element is modelled by its DOM query interface: each query
returns `some text` when the node is found and `none` when the lookup
raises `NoSuchElementException`. -/

structure ListingElem where
  /-- Models `find_element(By.CLASS_NAME, c).text`. -/
  classText : String → Option String
  /-- Models `find_element(By.CLASS_NAME, c).get_attribute(a)`. -/
  classAttr : String → String → Option String
  /-- Models `find_element(By.CSS_SELECTOR, sel).get_attribute(a)`. -/
  cssAttr : String → String → Option String
  /-- Models `find_element(By.CSS_SELECTOR, sel).text`. -/
  cssText : String → Option String

/-- One read in the extraction loop of `extract_product_details`:
`element.text if attr_type == "text" else element.get_attribute(attr_type)`. -/
def readField (elem : ListingElem) (class_name attr_type : String) :
    Option String :=
  if attr_type = "text" then elem.classText class_name
  else elem.classAttr class_name attr_type

/-- The `extraction_map` dict of `myntra2_fast.extract_product_details`:
`(field, (class name, read mode))` triples, in declaration order. -/
def extraction_map : List (String × String × String) :=
  [("brand_name", "product-brand", "text"),
   ("current_price", "product-discountedPrice", "text"),
   ("product_rating", "product-ratingsContainer", "text"),
   ("product_title", "product-product", "text"),
   ("original_price", "product-strike", "text"),
   ("sale_price", "product-discountedPrice", "text"),
   ("discount_percent", "product-discountPercentage", "text")]

/-- Models `setattr(product, field, v)` on the dynamic record, modelled as a
point update of the field-name-to-value map. -/
def updateF (get : String → String) (field v : String) : String → String :=
  fun f => if f = field then v else get f

/-- The `for field, (class_name, attr_type) in extraction_map.items()` loop
of `extract_product_details`: on a successful read the field is set, on
`NoSuchElementException` the record keeps its previous (default) value. -/
def applyExtraction (elem : ListingElem)
    (specs : List (String × String × String))
    (get0 : String → String) : String → String :=
  specs.foldl
    (fun get spec =>
      match readField elem spec.2.1 spec.2.2 with
      | some v => updateF get spec.1 v
      | none => get)
    get0

/-- The freshly constructed `ProductInfo(search_term=...)` dataclass:
every field defaults to the sentinel `"N/A"` except the identity field. -/
def defaultInfo (search_term : String) : String → String :=
  fun f => if f = "search_term" then search_term else ("N/A")

/-- Embeds `myntra_new._safe_extract` / `nyakaa_new._safe_extract_xpath`:
return the stripped element text, or `"N/A"` when the query raises. -/
def safeExtract (found : Option String) : String :=
  match found with
  | some t => pyStrip t
  | none => "N/A"

/-- Embeds `myntra2_fast.extract_product_details`: the `extraction_map` loop
followed by the four individually guarded reads (product link, image,
review count, breadcrumb), each keeping the default on
`NoSuchElementException`. -/
def extract_product_details_fast (elem : ListingElem)
    (driverCssText : String → Option String) (search_term : String) :
    String → String :=
  let product := applyExtraction elem extraction_map (defaultInfo search_term)
  let product :=
    match elem.cssAttr ("a[data-refreshpage=true]") ("href") with
    | some v => updateF product ("product_link") v
    | none => product
  let product :=
    match elem.cssAttr ("img.img-responsive") ("src") with
    | some v => updateF product ("image_link") v
    | none => product
  let product :=
    match elem.cssText (".product-ratingsCount") with
    | some t => updateF product ("review_count") (pyStripChars ['(', ')'] t)
    | none => product
  let product :=
    match driverCssText ("span.breadcrumbs-crumb[style=font-size: 14px; margin: 0px;]") with
    | some t => updateF product ("category_path") t
    | none => product
  product

/-! ## Image strategy chain (`extract_product_image` of `myntra_new.py`,
identical control flow in `nyakaa_new.py`)

A strategy invocation has three possible outcomes: it raises (absent
node / query error, swallowed by the bare `except: continue`), it
returns Python `None`, or it returns a string. -/

inductive StratResult where
  | err : StratResult
  | val : Option String → StratResult
deriving DecidableEq

/-- The acceptance test inside the loop body:
`if result and result.startswith("http")` — the strategy result is a
string that is non-empty and starts with `"http"`; `none` models both a
raised exception and a `None` return (both abstain). -/
def stratAccept : StratResult → Option String
  | .err => none
  | .val none => none
  | .val (some s) => if !(s == "") && pyStartsWith s ("http") then some s else none

/-- Embeds `extract_product_image`: walk the ordered strategy list, return the
first accepted result with its query string stripped
(`result.split("?")[0]`), or the sentinel when every strategy abstains. -/
def extract_product_image : List StratResult → String
  | [] => "Image not available"
  | r :: rest =>
    match stratAccept r with
    | some s => stripQuery s
    | none => extract_product_image rest

/-- Number of strategies the loop of `extract_product_image` invokes:
each iteration invokes one strategy, and the loop returns as soon as one
result is accepted. -/
def imageStrategiesInvoked : List StratResult → Nat
  | [] => 0
  | r :: rest =>
    match stratAccept r with
    | some _ => 1
    | none => 1 + imageStrategiesInvoked rest

/-! ## Size extraction (`_extract_size_options` of `myntra_new.py`,
identical logic in `nyakaa_new.py`)

A size element is modelled by its visible text, its `class` attribute
(`none` when the attribute is absent — Python `in` on `None` then raises
`TypeError`, caught by the surrounding bare `except`) and its
`aria-disabled` attribute. -/

structure SizeBtn where
  text : String
  className : Option String
  ariaDisabled : Option String
deriving DecidableEq

/-- The `for button in size_buttons` loop body: skip buttons with empty
(stripped) text, otherwise append `"label (status)"` where the status is
`"Out of Stock"` exactly when the class contains `"disabled"` or
`aria-disabled` equals `"true"`.  The result is `none` when an iteration
raises (absent `class` attribute), modelling the exception escaping the
loop. -/
def sizeLoop : List SizeBtn → Option (List String)
  | [] => some []
  | b :: bs =>
    let size_text := pyStrip b.text
    if size_text = "" then sizeLoop bs
    else
      match b.className with
      | none => none
      | some cls =>
        let is_disabled :=
          strContains cls ("disabled") || (b.ariaDisabled == some ("true"))
        let stock_status := if is_disabled then ("Out of Stock") else ("In Stock")
        (sizeLoop bs).map
          (fun rest => (size_text ++ " (" ++ stock_status ++ ")") :: rest)

/-- Embeds `_extract_size_options`: the loop above wrapped in the
`try ... except: return []` of the source. -/
def extract_size_options (btns : List SizeBtn) : List String :=
  match sizeLoop btns with
  | some l => l
  | none => []

/-! ## Detail-page extraction (`myntra_new.extract_product_details`) -/

/-- The `product_info` dict built by `myntra_new.extract_product_details`. -/
structure DeepRecord where
  search_keyword : String
  product_url : String
  brand : String
  name : String
  discounted_price : String
  original_price : String
  rating : String
  image_url : String
  reviews : List String
  available_sizes : List String
  breadcrumb : String
deriving DecidableEq

/-- A rendered product detail page, modelled by its DOM query results. -/
structure DetailPage where
  /-- Models `find_element(By.CLASS_NAME, c).text` (pre-strip). -/
  classText : String → Option String
  /-- Outcomes of the five image strategies, in declared order. -/
  imageStrategies : List StratResult
  /-- Texts of the review elements (`find_elements`, zero or more). -/
  reviewTexts : List String
  /-- The size buttons. -/
  sizeButtons : List SizeBtn
  /-- Texts of the breadcrumb elements. -/
  breadcrumbTexts : List String

/-- Embeds `_extract_reviews`: stripped texts of the review elements, empty
texts filtered out. -/
def extract_reviews (page : DetailPage) : List String :=
  (page.reviewTexts.map pyStrip).filter (fun t => t ≠ "")

/-- Embeds `_extract_breadcrumb`: the stripped, non-empty breadcrumb texts
joined with `" > "`. -/
def extract_breadcrumb (page : DetailPage) : String :=
  String.intercalate (" > ")
    ((page.breadcrumbTexts.map pyStrip).filter (fun t => t ≠ ""))

/-- Embeds `myntra_new.extract_product_details`: build the `product_info` dict,
then apply the original-price fixup
`if not product_info["original_price"]: ... = discounted_price`
(note: the test is Python falsiness of the string, which is `False` for
the sentinel `"N/A"`). -/
def extract_product_details_deep (page : DetailPage)
    (product_url search_keyword : String) : DeepRecord :=
  let info : DeepRecord :=
    { search_keyword := search_keyword
      product_url := product_url
      brand := safeExtract (page.classText ("pdp-title"))
      name := safeExtract (page.classText ("pdp-name"))
      discounted_price := safeExtract (page.classText ("pdp-price"))
      original_price := safeExtract (page.classText ("pdp-mrp"))
      rating := safeExtract (page.classText ("index-overallRating"))
      image_url := extract_product_image page.imageStrategies
      reviews := extract_reviews page
      available_sizes := extract_size_options page.sizeButtons
      breadcrumb := extract_breadcrumb page }
  if pyFalsy info.original_price then
    { info with original_price := info.discounted_price }
  else info

/-- Embeds `nyakaa_new.extract_product_details`, restricted to its price fixup:
the Nykaa variant replaces the original price by the discounted price
when the raw read is falsy **or equals the sentinel** `"N/A"`
(`if not product_info["original_price"] or
product_info["original_price"] == "N/A"`). -/
def nykaa_price_fixup (original_price discounted_price : String) : String :=
  if pyFalsy original_price || (original_price == "N/A") then
    discounted_price
  else original_price

/-! ## Deep-mode session loop (`myntra_new.run_scraping_session`,
lines 251-259) and persistence (`save_data`)

The filesystem is a map from file names to file contents. -/

/-- Contents of an output artifact. -/
inductive FileData where
  | csv : List (List String) → FileData
  | json : List DeepRecord → FileData
deriving DecidableEq

/-- The filesystem: file name to contents, `none` = file does not exist. -/
def FS : Type := String → Option FileData

/-- Writing one file. -/
def writeFile (fs : FS) (fname : String) (d : FileData) : FS :=
  fun f => if f = fname then some d else fs f

/-- The per-product visit loop of `run_scraping_session`
(lines 251-259): `extract_product_details` returns `some record` on
success and `none` when its `except Exception` branch fired; a
successful record is appended to `self.scraped_data`; the loop body
performs no filesystem write, so the filesystem is threaded unchanged. -/
def visit_products (extract : String → Option DeepRecord) :
    List String → List DeepRecord → FS → List DeepRecord × FS
  | [], scraped, fs => (scraped, fs)
  | url :: rest, scraped, fs =>
    match extract url with
    | some r => visit_products extract rest (scraped ++ [r]) fs
    | none => visit_products extract rest scraped fs

/-- The CSV field names of `myntra_new.save_data`. -/
def deep_fieldnames : List String :=
  ["search_keyword", "brand", "name", "product_url", "image_url",
   "original_price", "discounted_price", "rating", "reviews",
   "available_sizes", "breadcrumb"]

/-- One CSV row of `myntra_new.save_data`: the record fields in
`deep_fieldnames` order, with `reviews` joined by `" | "` (placeholder
`"No reviews"` when empty) and `available_sizes` joined by `"; "`
(placeholder `"No sizes"` when empty). -/
def deepCsvCells (r : DeepRecord) : List String :=
  [r.search_keyword, r.brand, r.name, r.product_url, r.image_url,
   r.original_price, r.discounted_price, r.rating,
   (if r.reviews.isEmpty then ("No reviews")
    else String.intercalate (" | ") r.reviews),
   (if r.available_sizes.isEmpty then ("No sizes")
    else String.intercalate ("; ") r.available_sizes),
   r.breadcrumb]

/-- Embeds `myntra_new.save_data` (the zero-record guard is identical in
`nyakaa_new.save_data`): with no scraped records it only prints a notice
and returns — no file is created; otherwise it writes
`filename + ".csv"` (header plus one row per record) and
`filename + ".json"` (the records). -/
def save_data (scraped_data : List DeepRecord) (filename : String)
    (fs : FS) : FS :=
  if scraped_data.isEmpty then fs
  else
    let fs1 := writeFile fs (filename ++ ".csv")
      (FileData.csv (deep_fieldnames :: scraped_data.map deepCsvCells))
    writeFile fs1 (filename ++ ".json") (FileData.json scraped_data)

/-! ## Shallow-mode persistence and pagination (`myntra2_fast.py`) -/

/-- A line of the CSV file written by `myntra2_fast.save_to_csv`:
either the header row or a data row holding the values of the thirteen
fields in `fieldnames` order. -/
inductive CsvRow where
  | header : CsvRow
  | data : List String → CsvRow
deriving DecidableEq

/-- The `fieldnames` list of `myntra2_fast.save_to_csv`. -/
def fieldnames : List String :=
  ["search_term", "brand_name", "current_price", "product_rating",
   "product_title", "original_price", "sale_price", "discount_percent",
   "category_path", "product_link", "image_link", "review_count",
   "size_options"]

/-- Embeds `myntra2_fast.save_to_csv`: the file is opened in mode `a` iff
`append_mode` is set **and** the file already exists, otherwise in mode
`w` (truncating); the header is written iff the mode is `w`; the data
rows of the batch are then appended (`writer.writerow(product.__dict__)`
serialises each record in `fieldnames` order).  The argument `file` is
the current contents of the target (`none` = does not exist), the result
is the contents after the call. -/
def save_to_csv (products : List (String → String))
    (file : Option (List CsvRow)) (append_mode : Bool) : List CsvRow :=
  let rows := if append_mode && file.isSome then file.getD [] else [CsvRow.header]
  rows ++ products.map (fun p => CsvRow.data (fieldnames.map p))

/-- Here `N` successive `save_to_csv` calls with `append_mode=True` on the
same target, as in the page loop of `run_scraping_session`. -/
def appendBatches (batches : List (List (String → String)))
    (file : Option (List CsvRow)) : Option (List CsvRow) :=
  batches.foldl (fun f b => some (save_to_csv b f true)) file

/-- The `while current_page <= pages_to_scrape` guard of
`run_scraping_session`:
`pages_to_scrape = max_pages if max_pages > 0 else float("inf")`. -/
def pageInLimit (max_pages current_page : Nat) : Bool :=
  if max_pages > 0 then current_page ≤ max_pages else true

/-- The page loop of `run_scraping_session` (lines 215-235) with the
fuel argument marking the point at which the session is abandoned
(crash / interrupt): each loop iteration fetches the current page,
breaks if it yielded no products, otherwise appends the page records to
the CSV via `save_to_csv(..., append_mode=True)` and moves to the next
page.  The result is the CSV contents at abandonment (after `fuel`
completed page units) or at normal loop exit, whichever comes first. -/
def run_pages_crash (results : Nat → List (String → String))
    (max_pages : Nat) :
    Nat → Nat → Option (List CsvRow) → Option (List CsvRow)
  | 0, _, file => file
  | fuel + 1, current_page, file =>
    if pageInLimit max_pages current_page then
      let page_products := results current_page
      if page_products.isEmpty then file
      else
        run_pages_crash results max_pages fuel (current_page + 1)
          (some (save_to_csv page_products file true))
    else file

/-- The same page loop, projected on the sequence of pages it fetches
(`scrape_products_from_page` calls), in order.  Fuel bounds the number
of iterations; every theorem about this function assumes the fuel large
enough that the loop terminates on its own. -/
def run_pages_fetched (results : Nat → List (String → String))
    (max_pages : Nat) : Nat → Nat → List Nat
  | 0, _ => []
  | fuel + 1, current_page =>
    if pageInLimit max_pages current_page then
      current_page ::
        (if (results current_page).isEmpty then []
         else run_pages_fetched results max_pages fuel (current_page + 1))
    else []

/-! ## Driver lifecycle (`myntra2_fast.py`: `run_scraping_session`
finally-block, `close_browser`, `main`) -/

/-- The scraper object as far as the driver lifecycle is concerned:
whether `self.driver` is set, and how many times `driver.quit()` has
been invoked. -/
structure ScraperState where
  driver : Bool
  quitCount : Nat
deriving DecidableEq

/-- Embeds `close_browser`: `if self.driver: self.driver.quit()` — note that
the driver reference is **not** cleared, so a later call quits again. -/
def close_browser (s : ScraperState) : ScraperState :=
  if s.driver then { s with quitCount := s.quitCount + 1 } else s

/-- How the session loop of `run_scraping_session` ends. -/
inductive SessionOutcome where
  /-- The term loop ran to completion. -/
  | normal : SessionOutcome
  /-- An exception in the loop, caught by the `except Exception` clause
  of `run_scraping_session`. -/
  | loopError : SessionOutcome
  /-- A `KeyboardInterrupt` in the loop: it is not an `Exception`, so it
  propagates through the `finally` of `run_scraping_session` up to the
  `except KeyboardInterrupt` clause of `main`. -/
  | keyboardInterrupt : SessionOutcome
deriving DecidableEq

/-- The `finally` block of `run_scraping_session`: `close_browser` runs
on every exit of the session loop (normal completion, caught error, or
propagating interrupt). -/
def run_scraping_session_cleanup (s : ScraperState) : ScraperState :=
  close_browser s

/-- Embeds `main`: `run_scraping_session` inside
`try ... except KeyboardInterrupt ... except Exception ... finally:
scraper.close_browser()` — whichever way the session loop ended, the
`finally` of `run_scraping_session` runs first and the `finally` of
`main` runs afterwards. -/
def main_cleanup (outcome : SessionOutcome) (s : ScraperState) :
    ScraperState :=
  match outcome with
  | .normal => close_browser (run_scraping_session_cleanup s)
  | .loopError => close_browser (run_scraping_session_cleanup s)
  | .keyboardInterrupt => close_browser (run_scraping_session_cleanup s)

/-! ## Theorems -/

theorem applyExtraction_cons (elem : ListingElem)
    (s : String × String × String) (rest : List (String × String × String))
    (get0 : String → String) :
    applyExtraction elem (s :: rest) get0 =
      applyExtraction elem rest
        (match readField elem s.2.1 s.2.2 with
         | some v => updateF get0 s.1 v
         | none => get0) := rfl

theorem applyExtraction_total (elem : ListingElem)
    (specs : List (String × String × String))
    (get0 : String → String) (f : String) :
    applyExtraction elem specs get0 f = get0 f ∨
      ∃ sel mode v, (f, sel, mode) ∈ specs ∧
        readField elem sel mode = some v ∧
        applyExtraction elem specs get0 f = v := by
  induction specs generalizing get0 with
  | nil => exact Or.inl rfl
  | cons s rest ih =>
    rw [applyExtraction_cons]
    cases h : readField elem s.2.1 s.2.2 with
    | none =>
      simp only [h]
      rcases ih get0 with h1 | ⟨sel, mode, v, hmem, hread, hval⟩
      · exact Or.inl h1
      · exact Or.inr ⟨sel, mode, v, List.mem_cons_of_mem _ hmem, hread, hval⟩
    | some v =>
      simp only [h]
      rcases ih (updateF get0 s.1 v) with h1 | ⟨sel, mode, w, hmem, hread, hval⟩
      · by_cases hf : f = s.1
        · refine Or.inr ⟨s.2.1, s.2.2, v, ?_, h, ?_⟩
          · subst hf
            exact List.mem_cons_self _ _
          · rw [h1, updateF, if_pos hf]
        · left
          rw [h1, updateF, if_neg hf]
      · exact Or.inr ⟨sel, mode, w, List.mem_cons_of_mem _ hmem, hread, hval⟩

/-- C3: image strategy-chain resolution is order-sensitive,
short-circuiting, validating and normalizing — the result is the first
strategy outcome (in declared order) that is a non-empty string starting
with `"http"`, truncated at the first `?`; if every strategy abstains
(raises, returns `None`, returns an empty or non-`http` string) the
sentinel is returned; and when the strategies before the accepting one
all abstain, exactly `pre.length + 1` strategies are invoked, so the
strategies after the accepting one are never invoked. -/
theorem extract_product_image_chain (ss : List StratResult) :
    extract_product_image ss =
      ((ss.findSome? stratAccept).map stripQuery).getD ("Image not available")
    ∧ (∀ (pre : List StratResult) (r : StratResult) (post : List StratResult),
        ss = pre ++ r :: post →
        (∀ x ∈ pre, stratAccept x = none) →
        (stratAccept r).isSome →
        imageStrategiesInvoked ss = pre.length + 1) := by
  constructor
  · induction ss with
    | nil => rfl
    | cons r rest ih =>
      cases h : stratAccept r with
      | none => simpa [extract_product_image, h, List.findSome?_cons] using ih
      | some s => simp [extract_product_image, h, List.findSome?_cons]
  · intro pre r post hss habstain haccept
    subst hss
    induction pre with
    | nil =>
      rcases Option.isSome_iff_exists.mp haccept with ⟨s, hs⟩
      simp [imageStrategiesInvoked, hs]
    | cons x pre ih =>
      have hx : stratAccept x = none := habstain x (List.mem_cons_self _ _)
      have ih2 := ih (fun y hy => habstain y (List.mem_cons_of_mem _ hy))
      rw [List.cons_append]
      have hstep : imageStrategiesInvoked (x :: (pre ++ r :: post)) =
          1 + imageStrategiesInvoked (pre ++ r :: post) := by
        simp [imageStrategiesInvoked, hx]
      rw [hstep, ih2, List.length_cons]
      omega

/-- Witness for C3: the spec scenario — the first strategy returns a
non-`http` value (fails validation), the second returns
`https://cdn.site.com/img/123.jpg?w=200` and is accepted with the query
string stripped, and the third strategy is never invoked (two strategies
invoked in total). -/
theorem extract_product_image_chain_witness :
    extract_product_image
        [StratResult.val (some ("notaurl")),
         StratResult.val (some ("https://cdn.site.com/img/123.jpg?w=200")),
         StratResult.val (some ("https://cdn.site.com/other.jpg"))] =
      "https://cdn.site.com/img/123.jpg"
    ∧ imageStrategiesInvoked
        [StratResult.val (some ("notaurl")),
         StratResult.val (some ("https://cdn.site.com/img/123.jpg?w=200")),
         StratResult.val (some ("https://cdn.site.com/other.jpg"))] = 2 := by
  have h := extract_product_image_chain
    [StratResult.val (some ("notaurl")),
     StratResult.val (some ("https://cdn.site.com/img/123.jpg?w=200")),
     StratResult.val (some ("https://cdn.site.com/other.jpg"))]
  refine ⟨?_, ?_⟩
  · rw [h.1]
    decide
  · have h2 := h.2 [StratResult.val (some ("notaurl"))]
      (StratResult.val (some ("https://cdn.site.com/img/123.jpg?w=200")))
      [StratResult.val (some ("https://cdn.site.com/other.jpg"))]
      rfl (by decide) (by decide)
    simpa using h2

theorem sizeLoop_all_labelled (btns : List SizeBtn)
    (h : ∀ b ∈ btns, b.className.isSome ∧ pyStrip b.text ≠ "") :
    sizeLoop btns =
      some (btns.map (fun b =>
        pyStrip b.text ++ " (" ++
          (if strContains (b.className.getD ("")) ("disabled") ||
              (b.ariaDisabled == some ("true"))
           then ("Out of Stock") else ("In Stock")) ++ ")")) := by
  induction btns with
  | nil => rfl
  | cons b bs ih =>
    obtain ⟨hsome, htext⟩ := h b (List.mem_cons_self _ _)
    rcases Option.isSome_iff_exists.mp hsome with ⟨c, hc⟩
    have ihbs := ih (fun x hx => h x (List.mem_cons_of_mem _ hx))
    simp only [sizeLoop, htext, if_neg htext, hc, ihbs, Option.map_some,
      List.map_cons, hc, Option.getD_some]
    simp [htext]

/-- C8: size extraction maps the labelled size elements, in DOM order,
to the sequence of `"label (status)"` entries where the status is
`"Out of Stock"` exactly when the element is disabled (its `class`
attribute contains `"disabled"` or its `aria-disabled` attribute equals
`"true"`) and `"In Stock"` otherwise — for every element list whose
elements carry a `class` attribute and a non-empty (stripped) label. -/
theorem extract_size_options_spec (btns : List SizeBtn)
    (h : ∀ b ∈ btns, b.className.isSome ∧ pyStrip b.text ≠ "") :
    extract_size_options btns =
      btns.map (fun b =>
        pyStrip b.text ++ " (" ++
          (if strContains (b.className.getD ("")) ("disabled") ||
              (b.ariaDisabled == some ("true"))
           then ("Out of Stock") else ("In Stock")) ++ ")") := by
  rw [extract_size_options, sizeLoop_all_labelled btns h]

/-- Witness for C8: the spec scenario — elements
`[("S", enabled), ("M", disabled)]` resolve to
`["S (In Stock)", "M (Out of Stock)"]`, order preserved. -/
theorem extract_size_options_spec_witness :
    extract_size_options
        [⟨"S", some ("size-buttons-size-button"), none⟩,
         ⟨"M", some ("size-buttons-size-button size-buttons-size-button-disabled"),
          none⟩] =
      ["S (In Stock)", "M (Out of Stock)"] := by
  rw [extract_size_options_spec
    [⟨"S", some ("size-buttons-size-button"), none⟩,
     ⟨"M", some ("size-buttons-size-button size-buttons-size-button-disabled"),
      none⟩]
    (by decide)]
  decide

/-- C6: field extraction is total with sentinel defaults — for every
field-spec list and page state, every declared field of the extracted
record is either the value actually read from the matching node or is
left at its previous (default `"N/A"`) value, and a missing DOM node
(modelled as a `none` query result, the caught `NoSuchElementException`)
never aborts the extraction: `applyExtraction` and `safeExtract` are
total functions, and `safeExtract` yields the genuinely read (stripped)
text on success and the sentinel `"N/A"` on a missing node. -/
theorem extract_fields_total_with_sentinel :
    (∀ (elem : ListingElem) (specs : List (String × String × String))
        (get0 : String → String) (f : String),
      applyExtraction elem specs get0 f = get0 f ∨
        ∃ sel mode v, (f, sel, mode) ∈ specs ∧
          readField elem sel mode = some v ∧
          applyExtraction elem specs get0 f = v)
    ∧ (∀ q : Option String,
        (q = none ∧ safeExtract q = "N/A") ∨
          (∃ t, q = some t ∧ safeExtract q = pyStrip t)) := by
  constructor
  · exact applyExtraction_total
  · intro q
    cases q with
    | none => exact Or.inl ⟨rfl, rfl⟩
    | some t => exact Or.inr ⟨t, rfl, rfl⟩

/-- C1: evaluation at the failing input.  In `myntra_new.py` a product
page whose discounted-price node reads `"Rs. 499"` and whose
original-price node is absent yields a record with
`original_price = "N/A"`, **not** the discounted price: the guard
`if not product_info["original_price"]` tests Python falsiness, and the
sentinel `"N/A"` returned by `_safe_extract` for a missing node is
truthy, so the default never fires (first three conjuncts).  The sibling
`nyakaa_new.py` fixup (`... or == "N/A"`) does substitute the discounted
price on the same raw reads (fourth conjunct), and a page with neither
price node does end with both fields at the sentinel in `myntra_new.py`
(last two conjuncts). -/
theorem original_price_default_eval :
    (extract_product_details_deep
        { classText := fun c => if c = "pdp-price" then some ("Rs. 499") else none
          imageStrategies := []
          reviewTexts := []
          sizeButtons := []
          breadcrumbTexts := [] } ("https://p") ("white shirt")).discounted_price
      = "Rs. 499"
    ∧ (extract_product_details_deep
        { classText := fun c => if c = "pdp-price" then some ("Rs. 499") else none
          imageStrategies := []
          reviewTexts := []
          sizeButtons := []
          breadcrumbTexts := [] } ("https://p") ("white shirt")).original_price
      = "N/A"
    ∧ (extract_product_details_deep
        { classText := fun c => if c = "pdp-price" then some ("Rs. 499") else none
          imageStrategies := []
          reviewTexts := []
          sizeButtons := []
          breadcrumbTexts := [] } ("https://p") ("white shirt")).original_price
      ≠ (extract_product_details_deep
        { classText := fun c => if c = "pdp-price" then some ("Rs. 499") else none
          imageStrategies := []
          reviewTexts := []
          sizeButtons := []
          breadcrumbTexts := [] } ("https://p") ("white shirt")).discounted_price
    ∧ nykaa_price_fixup (safeExtract none) ("Rs. 499") = "Rs. 499"
    ∧ (extract_product_details_deep
        { classText := fun _ => none
          imageStrategies := []
          reviewTexts := []
          sizeButtons := []
          breadcrumbTexts := [] } ("https://p") ("white shirt")).original_price
      = "N/A"
    ∧ (extract_product_details_deep
        { classText := fun _ => none
          imageStrategies := []
          reviewTexts := []
          sizeButtons := []
          breadcrumbTexts := [] } ("https://p") ("white shirt")).discounted_price
      = "N/A" := by
  refine ⟨?_, ?_, ?_, ?_, ?_, ?_⟩ <;> decide

/-- C10: when the session ends with zero scraped records, `save_data`
is a no-op on the filesystem — it creates neither the CSV nor the JSON
file — whereas with at least one record both files exist afterwards. -/
theorem save_data_empty_is_noop (filename : String) (fs : FS) :
    save_data [] filename fs = fs
    ∧ (∀ (r : DeepRecord) (rs : List DeepRecord),
        (save_data (r :: rs) filename fs (filename ++ ".csv")).isSome
        ∧ (save_data (r :: rs) filename fs (filename ++ ".json")).isSome) := by
  have hred : ∀ (r : DeepRecord) (rs : List DeepRecord),
      save_data (r :: rs) filename fs =
        writeFile
          (writeFile fs (filename ++ ".csv")
            (FileData.csv (deep_fieldnames :: (r :: rs).map deepCsvCells)))
          (filename ++ ".json") (FileData.json (r :: rs)) := fun _ _ => rfl
  refine ⟨rfl, fun r rs => ⟨?_, ?_⟩⟩
  · rw [hred r rs]
    simp only [writeFile]
    by_cases h : (filename ++ ".csv") = (filename ++ ".json") <;> simp [h]
  · rw [hred r rs]
    simp [writeFile]

theorem visit_products_fst (extract : String → Option DeepRecord)
    (urls : List String) (scraped : List DeepRecord) (fs : FS) :
    (visit_products extract urls scraped fs).1 =
      scraped ++ urls.filterMap extract := by
  induction urls generalizing scraped with
  | nil => simp [visit_products]
  | cons url rest ih =>
    cases h : extract url with
    | none => simp [visit_products, h, ih]
    | some r => simp [visit_products, h, ih]

/-- C7: a per-product extraction failure never aborts the batch — the
scraped list is exactly the successful extractions in URL order
(first conjunct), so when one URL fails (its extraction returns `none`,
the caught-and-logged exception of the source) it contributes no record
while every URL before and after it is still processed and their records
are unaffected (second conjunct). -/
theorem per_product_failure_skipped :
    (∀ (extract : String → Option DeepRecord) (urls : List String)
        (scraped : List DeepRecord) (fs : FS),
      (visit_products extract urls scraped fs).1 =
        scraped ++ urls.filterMap extract)
    ∧ (∀ (extract : String → Option DeepRecord) (us : List String)
        (u : String) (vs : List String) (scraped : List DeepRecord) (fs : FS),
      extract u = none →
      (visit_products extract (us ++ u :: vs) scraped fs).1 =
        scraped ++ us.filterMap extract ++ vs.filterMap extract) := by
  refine ⟨visit_products_fst, fun extract us u vs scraped fs hu => ?_⟩
  rw [visit_products_fst]
  simp [List.filterMap_append, List.filterMap_cons, hu, List.append_assoc]

/-- A sample deep record used in concrete evaluations. -/
def demoRecord : DeepRecord :=
  { search_keyword := "white shirt"
    product_url := "https://p1"
    brand := "B"
    name := "N"
    discounted_price := "Rs. 499"
    original_price := "Rs. 999"
    rating := "4.2"
    image_url := "https://cdn.site.com/img/123.jpg"
    reviews := []
    available_sizes := []
    breadcrumb := "Home" }

/-- Witness for C7: with the middle URL failing, the other two URLs are
still processed and contribute exactly their records, in order. -/
theorem per_product_failure_skipped_witness :
    (visit_products
        (fun u => if u = "bad" then none
                  else some { demoRecord with product_url := u })
        (["a"] ++ "bad" :: ["b"]) [] (fun _ => none)).1 =
      [{ demoRecord with product_url := "a" },
       { demoRecord with product_url := "b" }] := by
  rw [per_product_failure_skipped.2
    (fun u => if u = "bad" then none
              else some { demoRecord with product_url := u })
    (["a"]) ("bad") (["b"]) [] (fun _ => none) (by decide)]
  decide

/-- One CSV data row per product, as written by `save_to_csv`. -/
def csvRowsOf (products : List (String → String)) : List CsvRow :=
  products.map (fun p => CsvRow.data (fieldnames.map p))

theorem save_to_csv_append_existing (products : List (String → String))
    (rows : List CsvRow) :
    save_to_csv products (some rows) true = rows ++ csvRowsOf products := rfl

theorem save_to_csv_fresh (products : List (String → String)) :
    save_to_csv products none true =
      CsvRow.header :: csvRowsOf products := rfl

/-- The filesystem component of the deep-mode visit loop is never
written: the loop only mutates the in-memory `self.scraped_data`. -/
theorem visit_products_snd (extract : String → Option DeepRecord)
    (urls : List String) (scraped : List DeepRecord) (fs : FS) :
    (visit_products extract urls scraped fs).2 = fs := by
  induction urls generalizing scraped with
  | nil => rfl
  | cons url rest ih =>
    cases h : extract url with
    | none => simp [visit_products, h, ih]
    | some r => simp [visit_products, h, ih]

theorem run_pages_crash_nonempty_pages (results : Nat → List (String → String))
    (max_pages : Nat) :
    ∀ (k start : Nat) (rows : List CsvRow),
      (∀ p, start ≤ p → p < start + k →
        results p ≠ [] ∧ pageInLimit max_pages p = true) →
      run_pages_crash results max_pages k start (some rows) =
        some (rows ++
          ((List.range' start k).map (fun p => csvRowsOf (results p))).flatten) := by
  intro k
  induction k with
  | zero =>
    intro start rows _
    simp [run_pages_crash, List.range']
  | succ k ih =>
    intro start rows h
    obtain ⟨hne, hlim⟩ := h start (Nat.le_refl _) (by omega)
    have hempty : (results start).isEmpty = false := by
      simpa [List.isEmpty_iff] using hne
    rw [run_pages_crash, if_pos hlim]
    simp only [hempty, Bool.false_eq_true, if_false]
    rw [save_to_csv_append_existing,
      ih (start + 1) (rows ++ csvRowsOf (results start))
        (fun p hp1 hp2 => h p (by omega) (by omega))]
    rw [List.range'_succ]
    simp [List.append_assoc]

/-- C2 (counterexample): in deep mode the claim fails — after the first
product visit completes, the extracted record is in the in-memory
buffer but the filesystem is unchanged (still empty), so durable output
does **not** contain the records of completed units; the deep-mode
scrapers write files only once, in `save_data` after the whole session. -/
theorem incremental_persistence_counterexample :
    (visit_products (fun _ => some demoRecord) ["https://p1"] []
        (fun _ => none)).1 = [demoRecord]
    ∧ (visit_products (fun _ => some demoRecord) ["https://p1"] []
        (fun _ => none)).2 = (fun _ => none)
    ∧ (visit_products (fun _ => some demoRecord) ["https://p1"] []
        (fun _ => none)).2 ("out.csv") = none := by
  exact ⟨rfl, rfl, rfl⟩

/-- C2 (amended): persistence is incremental only in the shallow-mode
scraper (`myntra2_fast.py`): abandoning the session after `k` completed
listing-page units leaves a CSV containing the header and exactly the
records of pages `1..k`, in order (first conjunct).  The deep-mode
scrapers (`myntra_new.py`, `nyakaa_new.py`) write nothing to durable
storage during the visit loop — the filesystem after any number of
completed product-visit units is unchanged, all records being buffered
in memory until the final `save_data` (second conjunct). -/
theorem incremental_persistence_amended :
    (∀ (results : Nat → List (String → String)) (max_pages k : Nat),
      1 ≤ k →
      (∀ p, 1 ≤ p → p ≤ k →
        results p ≠ [] ∧ pageInLimit max_pages p = true) →
      run_pages_crash results max_pages k 1 none =
        some (CsvRow.header ::
          ((List.range' 1 k).map (fun p => csvRowsOf (results p))).flatten))
    ∧ (∀ (extract : String → Option DeepRecord) (urls : List String)
        (scraped : List DeepRecord) (fs : FS),
      (visit_products extract urls scraped fs).2 = fs) := by
  constructor
  · intro results max_pages k hk h
    obtain ⟨k, rfl⟩ : ∃ j, k = j + 1 := ⟨k - 1, by omega⟩
    obtain ⟨hne, hlim⟩ := h 1 (Nat.le_refl _) (by omega)
    have hempty : (results 1).isEmpty = false := by
      simpa [List.isEmpty_iff] using hne
    rw [run_pages_crash, if_pos hlim]
    simp only [hempty, Bool.false_eq_true, if_false]
    rw [save_to_csv_fresh,
      run_pages_crash_nonempty_pages results max_pages k 2
        (CsvRow.header :: csvRowsOf (results 1))
        (fun p hp1 hp2 => h p (by omega) (by omega))]
    rw [List.range'_succ]
    simp
  · exact visit_products_snd

/-- Witness for C2 (amended): a concrete two-page crash — abandoning the
shallow-mode session after two completed pages leaves the header and the
two pages' rows in the CSV, and a concrete deep-mode visit leaves the
filesystem untouched. -/
theorem incremental_persistence_amended_witness :
    run_pages_crash (fun p => if p ≤ 2 then [fun _ => "x"] else []) 0 2 1 none =
      some [CsvRow.header,
        CsvRow.data (fieldnames.map (fun _ => "x")),
        CsvRow.data (fieldnames.map (fun _ => "x"))]
    ∧ (visit_products (fun _ => some demoRecord) ["https://p1"] []
        (fun _ => none)).2 = (fun _ => none) := by
  constructor
  · rw [incremental_persistence_amended.1
      (fun p => if p ≤ 2 then [fun _ => "x"] else []) 0 2 (by omega)
      (fun p hp1 hp2 => by
        constructor
        · have : p = 1 ∨ p = 2 := by omega
          rcases this with h | h <;> subst h <;> simp
        · rfl)]
    rfl
  · exact incremental_persistence_amended.2 (fun _ => some demoRecord)
      ["https://p1"] [] (fun _ => none)

theorem appendBatches_some (batches : List (List (String → String))) :
    ∀ rows : List CsvRow,
      appendBatches batches (some rows) =
        some (rows ++ (batches.map csvRowsOf).flatten) := by
  induction batches with
  | nil => intro rows; simp [appendBatches]
  | cons b bs ih =>
    intro rows
    have hstep : appendBatches (b :: bs) (some rows) =
        appendBatches bs (some (save_to_csv b (some rows) true)) := rfl
    rw [hstep, save_to_csv_append_existing, ih]
    simp [List.append_assoc]

/-- C4: for every sequence of `N ≥ 1` `save_to_csv` calls in append mode
on a target that does not yet exist, the resulting file is exactly the
header row followed by the data rows of all `N` batches in submission
order (first conjunct) — no record dropped, duplicated or reordered —
and the header occurs exactly once (second conjunct). -/
theorem csv_append_header_once (b : List (String → String))
    (bs : List (List (String → String))) :
    appendBatches (b :: bs) none =
      some (CsvRow.header :: ((b :: bs).map csvRowsOf).flatten)
    ∧ (appendBatches (b :: bs) none).map
        (fun rows => rows.count CsvRow.header) = some 1 := by
  have hfirst : appendBatches (b :: bs) none =
      appendBatches bs (some (save_to_csv b none true)) := rfl
  have hmain : appendBatches (b :: bs) none =
      some (CsvRow.header :: ((b :: bs).map csvRowsOf).flatten) := by
    rw [hfirst, save_to_csv_fresh, appendBatches_some]
    simp
  refine ⟨hmain, ?_⟩
  have hnohdr : CsvRow.header ∉ ((b :: bs).map csvRowsOf).flatten := by
    intro hmem
    rcases List.mem_flatten.mp hmem with ⟨l, hl, hm⟩
    rcases List.mem_map.mp hl with ⟨batch, _, rfl⟩
    rcases List.mem_map.mp hm with ⟨p, _, hcontra⟩
    exact CsvRow.noConfusion hcontra
  have hc : (CsvRow.header :: ((b :: bs).map csvRowsOf).flatten).count
      CsvRow.header = 1 := by
    rw [List.count_cons_self, List.count_eq_zero.mpr hnohdr]
  rw [hmain]
  simpa using hc

theorem run_pages_fetched_past_limit (results : Nat → List (String → String))
    (max_pages : Nat) (hmp : 0 < max_pages) :
    ∀ (fuel p : Nat), max_pages < p →
      run_pages_fetched results max_pages fuel p = [] := by
  intro fuel p hp
  cases fuel with
  | zero => rfl
  | succ fuel =>
    have hlim : pageInLimit max_pages p = false := by
      simp only [pageInLimit, if_pos hmp, decide_eq_false_iff_not]
      omega
    rw [run_pages_fetched, if_neg (by simp [hlim])]

theorem run_pages_fetched_range (results : Nat → List (String → String))
    (max_pages e stop : Nat) (he : results e = [])
    (hlt : ∀ p, 1 ≤ p → p < e → results p ≠ [])
    (hstop : stop = if max_pages = 0 then e else min max_pages e) :
    ∀ (fuel p : Nat), 1 ≤ p → p ≤ stop → stop + 1 - p ≤ fuel →
      run_pages_fetched results max_pages fuel p =
        List.range' p (stop + 1 - p) := by
  have hstople : stop ≤ e := by
    rcases Nat.eq_zero_or_pos max_pages with h0 | h0
    · simp [hstop, h0]
    · rw [hstop, if_neg (by omega)]
      exact Nat.min_le_right _ _
  intro fuel
  induction fuel with
  | zero => intro p hp1 hp2 hfuel; omega
  | succ fuel ih =>
    intro p hp1 hp2 hfuel
    have hlim : pageInLimit max_pages p = true := by
      rcases Nat.eq_zero_or_pos max_pages with h0 | h0
      · simp [pageInLimit, h0]
      · have : p ≤ max_pages := by
          have : stop ≤ max_pages := by
            rw [hstop, if_neg (by omega)]
            exact Nat.min_le_left _ _
          omega
        simp [pageInLimit, h0, this]
    rw [run_pages_fetched, if_pos hlim]
    by_cases hpe : p = e
    · have hempty : (results p).isEmpty = true := by
        subst hpe
        simp [he]
      have hstopeq : stop = p := by omega
      rw [hempty]
      simp only [if_true]
      rw [hstopeq]
      have : p + 1 - p = 1 := by omega
      rw [this]
      rfl
    · have hne : results p ≠ [] := hlt p hp1 (by omega)
      have hempty : (results p).isEmpty = false := by
        simpa [List.isEmpty_iff] using hne
      rw [hempty]
      simp only [Bool.false_eq_true, if_false]
      by_cases hps : p < stop
      · rw [ih (p + 1) (by omega) (by omega) (by omega)]
        have harith : stop + 1 - p = (stop + 1 - (p + 1)) + 1 := by omega
        rw [harith, List.range'_succ]
      · -- p = stop < e, which forces a positive limit with stop = max_pages
        have hpstop : p = stop := by omega
        have hmp : 0 < max_pages := by
          rcases Nat.eq_zero_or_pos max_pages with h0 | h0
          · exfalso
            rw [hstop, if_pos h0] at hpstop
            omega
          · exact h0
        have hstopmp : stop = max_pages := by
          rw [hstop, if_neg (by omega)] at hpstop ⊢
          rcases Nat.le_total max_pages e with hle | hle
          · simp [Nat.min_eq_left hle]
          · exfalso
            rw [Nat.min_eq_right hle] at hpstop
            omega
        rw [run_pages_fetched_past_limit results max_pages hmp fuel (p + 1)
          (by omega)]
        have h1 : stop + 1 - stop = 1 := by omega
        rw [hpstop, h1]
        rfl

/-- C5: the pagination loop fetches pages `1, 2, ...` in order and stops
exactly at `min(limit, first empty page)`: with an (existing) first
empty page `e`, the fetched pages are `1..e` when the configured limit
is `0` (unbounded) and `1..min(limit, e)` otherwise — in particular the
first empty page is the last one fetched and no page after it is ever
fetched (first conjunct); and with a positive limit and no empty page up
to the limit, the fetched pages are exactly `1..limit` (second
conjunct).  Fuel must merely be large enough for the loop to reach its
own stopping point. -/
theorem pagination_termination (results : Nat → List (String → String))
    (max_pages e fuel : Nat) :
    (results e = [] → 1 ≤ e → (∀ p, 1 ≤ p → p < e → results p ≠ []) →
      e ≤ fuel →
      run_pages_fetched results max_pages fuel 1 =
        List.range' 1 (if max_pages = 0 then e else min max_pages e))
    ∧ (0 < max_pages → (∀ p, 1 ≤ p → p ≤ max_pages → results p ≠ []) →
      max_pages ≤ fuel →
      run_pages_fetched results max_pages fuel 1 =
        List.range' 1 max_pages) := by
  constructor
  · intro he h1 hlt hfuel
    have hstople : (if max_pages = 0 then e else min max_pages e) ≤ e := by
      rcases Nat.eq_zero_or_pos max_pages with h0 | h0
      · simp [h0]
      · rw [if_neg (by omega)]
        exact Nat.min_le_right _ _
    have hstop1 : 1 ≤ (if max_pages = 0 then e else min max_pages e) := by
      rcases Nat.eq_zero_or_pos max_pages with h0 | h0
      · simpa [h0] using h1
      · rw [if_neg (by omega)]
        exact le_min h0 h1
    have h := run_pages_fetched_range results max_pages e
      (if max_pages = 0 then e else min max_pages e) he hlt rfl fuel 1
      (Nat.le_refl _) hstop1 (by omega)
    have harith : (if max_pages = 0 then e else min max_pages e) + 1 - 1 =
        (if max_pages = 0 then e else min max_pages e) := by omega
    rw [h, harith]
  · intro hmp hall hfuel
    -- instantiate the range lemma with a virtual first empty page past
    -- the limit: only pages up to the limit are ever examined
    have h := run_pages_fetched_range
      (fun p => if p ≤ max_pages then results p else [])
      max_pages (max_pages + 1) max_pages (by simp)
      (fun p hp1 hp2 => by
        have hle : p ≤ max_pages := by omega
        simpa [hle] using hall p hp1 hle)
      (by rw [if_neg (by omega)]; omega)
      fuel 1 (Nat.le_refl _) hmp (by omega)
    -- the modified results agree with the original on every page the
    -- loop visits, so the fetched-page traces coincide
    have hagree : ∀ (f p : Nat), p ≤ max_pages + 1 →
        run_pages_fetched (fun q => if q ≤ max_pages then results q else [])
          max_pages f p = run_pages_fetched results max_pages f p := by
      intro f
      induction f with
      | zero => intro p _; rfl
      | succ f ihf =>
        intro p hp
        by_cases hlim : pageInLimit max_pages p = true
        · have hple : p ≤ max_pages := by
            simpa [pageInLimit, hmp] using hlim
          rw [run_pages_fetched, run_pages_fetched, if_pos hlim, if_pos hlim]
          simp only [hple, if_true]
          by_cases hres : (results p).isEmpty = true
          · rw [hres]
            simp
          · rw [Bool.not_eq_true] at hres
            rw [hres]
            simp only [Bool.false_eq_true, if_false]
            rw [ihf (p + 1) (by omega)]
        · rw [run_pages_fetched, run_pages_fetched,
            if_neg hlim, if_neg hlim]
    rw [hagree fuel 1 (by omega)] at h
    have harith : max_pages + 1 - 1 = max_pages := by omega
    rw [h, harith]

/-- Witness for C5: with pages `1` and `2` non-empty and page `3` the
first empty page, an unbounded (limit `0`) crawl fetches exactly pages
`[1, 2, 3]` and stops; with limit `2` and no empty page up to the limit,
exactly pages `[1, 2]` are fetched. -/
theorem pagination_termination_witness :
    run_pages_fetched (fun p => if p = 3 then [] else [fun _ => "x"]) 0 9 1 =
      [1, 2, 3]
    ∧ run_pages_fetched (fun _ => [fun _ => "x"]) 2 9 1 = [1, 2] := by
  constructor
  · have h := (pagination_termination
      (fun p => if p = 3 then [] else [fun _ => "x"]) 0 3 9).1
      (by simp) (by omega)
      (fun p hp1 hp2 => by
        have : p = 1 ∨ p = 2 := by omega
        rcases this with h | h <;> subst h <;> simp)
      (by omega)
    rw [h]
    rfl
  · have h := (pagination_termination (fun _ => [fun _ => "x"]) 2 0 9).2
      (by omega) (fun p _ _ => by simp) (by omega)
    rw [h]
    rfl

/-- C9 (counterexample): `driver.quit()` is invoked **twice** per
session, not at most once — the `finally` of `run_scraping_session`
calls `close_browser` and the `finally` of `main` calls it again, and
since `close_browser` never clears `self.driver`, the second call quits
again: on a normal run starting from a live driver the quit count ends
at `2`, refuting "never invoked more than once per session". -/
theorem driver_quit_counterexample :
    (main_cleanup SessionOutcome.normal ⟨true, 0⟩).quitCount = 2
    ∧ ¬ ((main_cleanup SessionOutcome.normal ⟨true, 0⟩).quitCount ≤ 1) := by
  decide

/-- C9 (amended): the driver release is invoked on every exit path of
the session loop — normal completion, a caught loop error, or a
keyboard interrupt — but exactly **twice** per session (once by the
`finally` of `run_scraping_session` and once again by the `finally` of
`main`, `close_browser` never clearing the driver reference); in
particular it is invoked at least once on every exit path. -/
theorem driver_quit_amended (outcome : SessionOutcome) (s : ScraperState)
    (h : s.driver = true) :
    (main_cleanup outcome s).quitCount = s.quitCount + 2
    ∧ s.quitCount < (main_cleanup outcome s).quitCount := by
  cases outcome <;>
    simp [main_cleanup, run_scraping_session_cleanup, close_browser, h] <;>
    omega

/-- Witness for C9 (amended): a live driver and a normal session end. -/
theorem driver_quit_amended_witness :
    (main_cleanup SessionOutcome.normal ⟨true, 0⟩).quitCount =
      (ScraperState.mk true 0).quitCount + 2
    ∧ (ScraperState.mk true 0).quitCount <
      (main_cleanup SessionOutcome.normal ⟨true, 0⟩).quitCount :=
  driver_quit_amended SessionOutcome.normal ⟨true, 0⟩ rfl

end WebScrape
